import Mathlib

/-!
Verification of the room/proposal-voting engine of the Climate-KIC
collaborative environment. The definitions below are a shallow embedding of
the server-side persistence repository
(`src/lib/repositories/auth-repository.ts`, persistence part), the SQL schema
(`supabase` migrations) and the API route handlers (`src/app/api/vote/route.ts`,
room chat route). The relational store is modelled as explicit lists of rows;
SQL `update ... where` statements become `List.map` with a guard, `insert ...
on conflict do update` becomes an explicit upsert on the primary-key columns,
and `begin/commit/rollback` transactions become pure functions that either
return the new state (commit) or the unchanged input state (rollback).
Timestamps are natural numbers (milliseconds), mirroring `Date.getTime()`.
-/

namespace ClimateKic

/-- Proposal lifecycle status, from the `proposal_status` Postgres enum
(`active`, `closed`, `cancelled`). -/
inductive ProposalStatus
  | active
  | closed
  | cancelled
deriving DecidableEq, Repr

/-- Room member role, from the `room_member_role` enum. -/
inductive RoomMemberRole
  | admin
  | member
deriving DecidableEq, Repr

/-- Room lifecycle status, from the `room_status` enum. -/
inductive RoomStatus
  | active
  | archived
  | deleted
deriving DecidableEq, Repr

/-- Chat message role, from the `chat_message_role` enum. -/
inductive MessageRole
  | user
  | assistant
  | system
deriving DecidableEq, Repr

/-- A row of `public.users` (the columns the voting engine reads). -/
structure UserRow where
  id : String
  username : String
deriving DecidableEq, Repr

/-- A row of `public.rooms` (runtime columns used by the engine). -/
structure RoomRow where
  id : String
  onyxSessionId : Option String
  title : String
  createdByUserId : String
  status : RoomStatus
  aiThinking : Bool
  createdAt : Nat
  updatedAt : Nat
deriving DecidableEq, Repr

/-- A row of `public.room_members`; primary key is `(room_id, user_id)`. -/
structure RoomMemberRow where
  roomId : String
  userId : String
  role : RoomMemberRole
  joinedAt : Nat
  updatedAt : Nat
  lastSeenAt : Nat
  isActive : Bool
deriving DecidableEq, Repr

/-- A row of `public.messages` (columns the engine touches). -/
structure MessageRow where
  id : String
  roomId : String
  role : MessageRole
  content : String
  senderName : Option String
  proposalId : Option String
  createdAt : Nat
deriving DecidableEq, Repr

/-- A row of `public.proposals`. `durationHours` is an `integer` column;
`endsAt` is computed server-side on insertion. -/
structure ProposalRow where
  id : String
  roomId : String
  title : String
  description : String
  createdByUserId : Option String
  status : ProposalStatus
  durationHours : Int
  createdAt : Nat
  updatedAt : Nat
  endsAt : Nat
  closedAt : Option Nat
  aiResponseMessageId : Option String
deriving DecidableEq, Repr

/-- A row of `public.proposal_options`; `(proposal_id, sort_order)` is unique. -/
structure ProposalOptionRow where
  id : String
  proposalId : String
  label : String
  sortOrder : Nat
deriving DecidableEq, Repr

/-- A row of `public.votes`; primary key is `(proposal_id, user_id)`. -/
structure VoteRow where
  proposalId : String
  optionId : String
  userId : String
  createdAt : Nat
  updatedAt : Nat
deriving DecidableEq, Repr

/-- A row of `public.audit_logs` (the columns the engine writes). -/
structure AuditLogRow where
  roomId : Option String
  actorUserId : Option String
  action : String
  entityType : String
  entityId : Option String
  createdAt : Nat
deriving DecidableEq, Repr

/-- The relational store: one list of rows per table. -/
structure DB where
  users : List UserRow
  rooms : List RoomRow
  members : List RoomMemberRow
  messages : List MessageRow
  proposals : List ProposalRow
  options : List ProposalOptionRow
  votes : List VoteRow
  auditLogs : List AuditLogRow
deriving DecidableEq, Repr

/-- The structured success/failure result returned by the voting engine
(`{ success: boolean; error?: string }` in the source). -/
inductive EngineResult
  | success
  | failure (error : String)
deriving DecidableEq, Repr

/-- The `select ... from public.proposals where id = $1 and room_id = $2`
lookup used by `castVoteForProposal` and friends. -/
def findProposalInRoom (proposals : List ProposalRow) (proposalId roomId : String) :
    Option ProposalRow :=
  proposals.find? (fun p => decide (p.id = proposalId ∧ p.roomId = roomId))

/-- The `select id from public.proposal_options where id = $1 and
proposal_id = $2` validation query in `castVoteForProposal`. -/
def findOptionOfProposal (options : List ProposalOptionRow) (optionId proposalId : String) :
    Option ProposalOptionRow :=
  options.find? (fun o => decide (o.id = optionId ∧ o.proposalId = proposalId))

/-- The `set status = 'closed', closed_at = now(), updated_at = now()` update
applied to a proposal row. -/
def closeProposalRow (now : Nat) (p : ProposalRow) : ProposalRow :=
  { p with status := .closed, closedAt := some now, updatedAt := now }

/-- The `insert into public.votes ... on conflict (proposal_id, user_id) do
update set option_id = excluded.option_id, updated_at = now()` upsert. -/
def upsertVoteRow (votes : List VoteRow) (now : Nat) (proposalId optionId userId : String) :
    List VoteRow :=
  if votes.any (fun v => decide (v.proposalId = proposalId ∧ v.userId = userId)) then
    votes.map (fun v =>
      if v.proposalId = proposalId ∧ v.userId = userId then
        { v with optionId := optionId, updatedAt := now }
      else v)
  else
    votes ++ [{ proposalId := proposalId, optionId := optionId, userId := userId,
                createdAt := now, updatedAt := now }]

/-- `castVoteForProposal` from the persistence repository: lock and re-read
the proposal row; reject (rolling back) when it is missing; when it is not
active or its end time has passed, flip a still-active proposal to closed,
commit, and reject with "Voting is closed"; reject (rolling back) an option
that does not belong to the proposal; otherwise upsert the vote and commit. -/
def castVoteForProposal (db : DB) (now : Nat) (roomId proposalId userId optionId : String) :
    DB × EngineResult :=
  match findProposalInRoom db.proposals proposalId roomId with
  | none => (db, .failure "Proposal not found")
  | some proposal =>
    if proposal.status ≠ .active ∨ proposal.endsAt ≤ now then
      let db' :=
        if proposal.status = .active then
          { db with proposals := db.proposals.map (fun p =>
              if p.id = proposalId then closeProposalRow now p else p) }
        else db
      (db', .failure "Voting is closed")
    else
      match findOptionOfProposal db.options optionId proposalId with
      | none => (db, .failure "Invalid option")
      | some _ =>
        ({ db with votes := upsertVoteRow db.votes now proposalId optionId userId }, .success)

/-- `closeProposalById` from the persistence repository: a single
unconditional `update` setting `status = 'closed'`, `closed_at = now()` and
`ai_response_message_id = coalesce($3, ai_response_message_id)`; the result is
"Proposal not found" exactly when no row matched. -/
def closeProposalById (db : DB) (now : Nat) (roomId proposalId : String)
    (aiResponseMessageId : Option String) : DB × EngineResult :=
  if db.proposals.any (fun p => decide (p.id = proposalId ∧ p.roomId = roomId)) then
    ({ db with proposals := db.proposals.map (fun p =>
        if p.id = proposalId ∧ p.roomId = roomId then
          { p with status := .closed, closedAt := some now, updatedAt := now,
                   aiResponseMessageId :=
                     match aiResponseMessageId with
                     | some m => some m
                     | none => p.aiResponseMessageId }
        else p) }, .success)
  else
    (db, .failure "Proposal not found")

/-- `closeExpiredProposals` from the persistence repository: the lazy sweep
`update ... set status = 'closed', closed_at = now(), updated_at = now() where
room_id = $1 and status = 'active' and ends_at <= now()`. -/
def closeExpiredProposals (db : DB) (now : Nat) (roomId : String) : DB :=
  { db with proposals := db.proposals.map (fun p =>
      if p.roomId = roomId ∧ p.status = .active ∧ p.endsAt ≤ now then
        closeProposalRow now p
      else p) }

/-- `createProposalWithOptions` from the persistence repository: clamp the
requested duration into `[1, 168]`, insert the proposal row with
`ends_at = now() + durationHours` (Postgres evaluates both `created_at`
defaults and the `now()` in the insert at the same transaction timestamp),
then insert one option row per label at sort positions `0..n-1`, all in one
transaction. Fresh row ids (`gen_random_uuid()` in the source) are supplied by
the caller as `newProposalId`. -/
def createProposalWithOptions (db : DB) (now : Nat) (newProposalId : String)
    (roomId title description : String) (options : List String)
    (createdByUserId : String) (durationHours : Int) : DB × ProposalRow :=
  let safeDuration : Int := max 1 (min durationHours 168)
  let proposal : ProposalRow :=
    { id := newProposalId, roomId := roomId, title := title, description := description,
      createdByUserId := some createdByUserId, status := .active,
      durationHours := safeDuration, createdAt := now, updatedAt := now,
      endsAt := now + safeDuration.toNat * 3600000, closedAt := none,
      aiResponseMessageId := none }
  let optionRows : List ProposalOptionRow :=
    options.enum.map (fun pair =>
      { id := newProposalId ++ "#" ++ toString pair.1, proposalId := newProposalId,
        label := pair.2, sortOrder := pair.1 })
  ({ db with proposals := db.proposals ++ [proposal],
             options := db.options ++ optionRows }, proposal)

/-- `upsertRoomMember` from the persistence repository: `insert into
public.room_members ... values ($1, $2, $3, true, now()) on conflict
(room_id, user_id) do update set role = excluded.role, is_active = true,
last_seen_at = now()`, with the role argument defaulting to `member`. -/
def upsertRoomMember (db : DB) (now : Nat) (roomId userId : String)
    (role : Option RoomMemberRole) : DB :=
  let effectiveRole := role.getD .member
  if db.members.any (fun m => decide (m.roomId = roomId ∧ m.userId = userId)) then
    { db with members := db.members.map (fun m =>
        if m.roomId = roomId ∧ m.userId = userId then
          { m with role := effectiveRole, isActive := true, lastSeenAt := now,
                   updatedAt := now }
        else m) }
  else
    { db with members := db.members ++
        [{ roomId := roomId, userId := userId, role := effectiveRole,
           joinedAt := now, updatedAt := now, lastSeenAt := now, isActive := true }] }

/-- `createRoomWithAdmin` from the persistence repository: in one
transaction, insert the room row, upsert the creator as an `admin` member and
append an audit entry; a duplicate room id aborts the whole unit (unique-key
violation on `rooms.id`) and the store is left unchanged. -/
def createRoomWithAdmin (db : DB) (now : Nat) (roomId : String)
    (onyxSessionId : Option String) (title : Option String) (creatorUserId : String) :
    Except String (DB × RoomRow) :=
  if db.rooms.any (fun r => decide (r.id = roomId)) then
    .error "duplicate key value violates unique constraint"
  else
    let room : RoomRow :=
      { id := roomId, onyxSessionId := onyxSessionId,
        title := title.getD "Valle Verde Simulation", createdByUserId := creatorUserId,
        status := .active, aiThinking := false, createdAt := now, updatedAt := now }
    let db1 : DB := { db with rooms := db.rooms ++ [room] }
    let db2 := upsertRoomMember db1 now roomId creatorUserId (some .admin)
    let db3 : DB := { db2 with auditLogs := db2.auditLogs ++
        [{ roomId := some roomId, actorUserId := some creatorUserId,
           action := "room.create", entityType := "room", entityId := some roomId,
           createdAt := now }] }
    .ok (db3, room)

/-- One entry of the `results` array computed by `getVoteResultsForProposal`:
per-option label, vote count and voter names. -/
structure OptionResult where
  optionId : String
  label : String
  count : Nat
  voters : List String
deriving DecidableEq, Repr

/-- The `winner` object of a vote-results view. -/
structure WinnerView where
  optionId : String
  label : String
  count : Nat
deriving DecidableEq, Repr

/-- Shorthand for promoting a result row to a winner candidate, as the
source's `{ optionId: result.optionId, label: result.label, count:
result.count }` literal does. -/
def toWinner (r : OptionResult) : WinnerView :=
  { optionId := r.optionId, label := r.label, count := r.count }

/-- One step of the winner-selection loop in `getVoteResultsForProposal`:
`if (!winner || result.count > winner.count) winner = {...}`. -/
def pickWinner (acc : Option WinnerView) (r : OptionResult) : Option WinnerView :=
  match acc with
  | none => some (toWinner r)
  | some w => if r.count > w.count then some (toWinner r) else some w

/-- The complete winner computation of `getVoteResultsForProposal`: scan the
result rows keeping the first strictly-greater count, then drop a winner whose
count is zero (`if (winner && winner.count === 0) winner = null`). -/
def computeWinner (results : List OptionResult) : Option WinnerView :=
  match results.foldl pickWinner none with
  | some w => if w.count = 0 then none else some w
  | none => none

/-- Insertion into a list of option rows kept in ascending `sort_order`
(the `order by po.sort_order asc` of the results query). -/
def insertOptionAsc (x : ProposalOptionRow) : List ProposalOptionRow → List ProposalOptionRow
  | [] => [x]
  | y :: ys => if x.sortOrder ≤ y.sortOrder then x :: y :: ys else y :: insertOptionAsc x ys

/-- Sort option rows by ascending `sort_order`. -/
def sortOptionsByOrder : List ProposalOptionRow → List ProposalOptionRow
  | [] => []
  | x :: xs => insertOptionAsc x (sortOptionsByOrder xs)

/-- The grouped `left join` of the results query: for each option of the
proposal (in sort order), the count of vote rows referencing that option and
the usernames of those voters (`array_remove(array_agg(u.username), null)`;
votes are joined on `option_id` alone, exactly as in the SQL). -/
def voteResultsRows (db : DB) (proposalId : String) : List OptionResult :=
  (sortOptionsByOrder (db.options.filter (fun o => decide (o.proposalId = proposalId)))).map
    (fun o =>
      let optionVotes := db.votes.filter (fun v => decide (v.optionId = o.id))
      { optionId := o.id, label := o.label,
        count := optionVotes.length,
        voters := optionVotes.filterMap (fun v =>
          (db.users.find? (fun u => decide (u.id = v.userId))).map (fun u => u.username)) })

/-- The view returned by `getVoteResultsForProposal`. -/
structure VoteResultsView where
  proposal : ProposalRow
  results : List OptionResult
  totalVotes : Nat
  winner : Option WinnerView
deriving DecidableEq, Repr

/-- `getVoteResultsForProposal` from the persistence repository: it first
loads the proposal through `listProposalsByRoom` (whose read path runs the
`closeExpiredProposals` lazy sweep, mutating the store), returns `none` when
the proposal does not exist in the room, and otherwise aggregates per-option
counts, the total and the winner. -/
def getVoteResultsForProposal (db : DB) (now : Nat) (roomId proposalId : String) :
    DB × Option VoteResultsView :=
  let db1 := closeExpiredProposals db now roomId
  match findProposalInRoom db1.proposals proposalId roomId with
  | none => (db1, none)
  | some proposal =>
    let results := voteResultsRows db1 proposalId
    (db1, some { proposal := proposal, results := results,
                 totalVotes := results.foldl (fun s r => s + r.count) 0,
                 winner := computeWinner results })

/-- The room summary produced by `listRoomsForUser`. -/
structure RoomSummary where
  roomId : String
  title : String
  role : RoomMemberRole
  roomStatus : RoomStatus
  joinedAt : Nat
  lastSeenAt : Nat
  lastMessageAt : Option Nat
deriving DecidableEq, Repr

/-- Maximum of a list of naturals, `none` on the empty list (the SQL
`max(m.created_at)` aggregate, which is null over an empty group). -/
def maxNat? : List Nat → Option Nat
  | [] => none
  | n :: t =>
    match maxNat? t with
    | none => some n
    | some m => some (max n m)

/-- `max(m.created_at)` over the messages of one room. -/
def lastMessageAt (messages : List MessageRow) (roomId : String) : Option Nat :=
  maxNat? ((messages.filter (fun m => decide (m.roomId = roomId))).map (fun m => m.createdAt))

/-- The join step of the `listRoomsForUser` query: a membership row joined to
its room (an inner join — a dangling membership produces no row), annotated
with the sort key `coalesce(max(m.created_at), r.updated_at)`. -/
def summarizeMembership (db : DB) (m : RoomMemberRow) : Option (RoomSummary × Nat) :=
  match db.rooms.find? (fun r => decide (r.id = m.roomId)) with
  | none => none
  | some r =>
    let lm := lastMessageAt db.messages m.roomId
    some ({ roomId := m.roomId, title := r.title, role := m.role, roomStatus := r.status,
            joinedAt := m.joinedAt, lastSeenAt := m.lastSeenAt, lastMessageAt := lm },
          lm.getD r.updatedAt)

/-- The rows of the `listRoomsForUser` query before ordering: active
memberships of the user joined to their rooms. -/
def roomSummariesForUser (db : DB) (userId : String) : List (RoomSummary × Nat) :=
  (db.members.filter (fun m => decide (m.userId = userId ∧ m.isActive = true))).filterMap
    (summarizeMembership db)

/-- Insertion into a list of keyed summaries kept in descending key order
(the `order by coalesce(...) desc`). -/
def insertByKeyDesc (x : RoomSummary × Nat) :
    List (RoomSummary × Nat) → List (RoomSummary × Nat)
  | [] => [x]
  | y :: ys => if y.2 < x.2 then x :: y :: ys else y :: insertByKeyDesc x ys

/-- Sort keyed summaries by descending key. -/
def sortByKeyDesc : List (RoomSummary × Nat) → List (RoomSummary × Nat)
  | [] => []
  | x :: xs => insertByKeyDesc x (sortByKeyDesc xs)

/-- `listRoomsForUser` from the persistence repository: active memberships
joined to rooms, annotated with the latest message timestamp, ordered by most
recent activity (latest message, falling back to the room's `updated_at`) and
truncated to `limit`. -/
def listRoomsForUser (db : DB) (userId : String) (limit : Nat) : List RoomSummary :=
  ((sortByKeyDesc (roomSummariesForUser db userId)).take limit).map (fun p => p.1)

/-- `setRoomAiThinking` from the persistence repository:
`update public.rooms set ai_thinking = $2, updated_at = now() where id = $1`. -/
def setRoomAiThinking (db : DB) (now : Nat) (roomId : String) (isThinking : Bool) : DB :=
  { db with rooms := db.rooms.map (fun r =>
      if r.id = roomId then { r with aiThinking := isThinking, updatedAt := now } else r) }

/-- `setRoomSessionId` from the persistence repository:
`update public.rooms set onyx_session_id = $2, updated_at = now() where id = $1`. -/
def setRoomSessionId (db : DB) (now : Nat) (roomId sessionId : String) : DB :=
  { db with rooms := db.rooms.map (fun r =>
      if r.id = roomId then { r with onyxSessionId := some sessionId, updatedAt := now }
      else r) }

/-- `addLocalMessage` from the persistence repository: append one message row
(the fresh `gen_random_uuid()` id is supplied by the caller as `newId`). -/
def addLocalMessage (db : DB) (now : Nat) (newId roomId : String) (role : MessageRole)
    (content : String) (senderName : Option String) (proposalId : Option String) :
    DB × MessageRow :=
  let message : MessageRow :=
    { id := newId, roomId := roomId, role := role, content := content,
      senderName := senderName, proposalId := proposalId, createdAt := now }
  ({ db with messages := db.messages ++ [message] }, message)

/-- The `ai_thinking` flag of a room as a reader observes it. -/
def roomAiThinking (db : DB) (roomId : String) : Option Bool :=
  (db.rooms.find? (fun r => decide (r.id = roomId))).map (fun r => r.aiThinking)

/-- The observable outcome of one outbound narration (`sendOnyxMessage`)
call, covering the four exit paths of the chat handler's protected body:
a successful answer (optionally rotating the session id), an error result
(non-2xx or "no content", caught and returned as `{answer: null, error}`),
a timeout (aborted fetch, likewise caught and converted to a network-error
result), and an exception escaping the body. -/
inductive OnyxOutcome
  | answer (text : String) (newSessionId : Option String)
  | errorResponse (error : String)
  | timeout
  | raised
deriving DecidableEq, Repr

/-- The states produced by one narration dispatch: the store as it stands
while the outbound call is in flight, and the store after the handler's
`finally` block has run. -/
structure ChatDispatchStates where
  duringCall : DB
  final : DB
  raised : Bool
deriving DecidableEq, Repr

/-- The narration segment of the chat `POST` handler: set the room's
`ai_thinking` flag, run the outbound call inside `try`, persist a rotated
session id and the assistant (or fallback) message on the non-throwing paths,
and clear the flag in the `finally` block on every exit path. -/
def chatNarrationDispatch (db : DB) (now : Nat) (roomId newMessageId : String)
    (outcome : OnyxOutcome) : ChatDispatchStates :=
  let db1 := setRoomAiThinking db now roomId true
  match outcome with
  | .answer text newSessionId =>
    let db2 :=
      match newSessionId with
      | some sid => setRoomSessionId db1 now roomId sid
      | none => db1
    let db3 := (addLocalMessage db2 now newMessageId roomId .assistant text
      (some "Onyx AI") none).1
    { duringCall := db1, final := setRoomAiThinking db3 now roomId false, raised := false }
  | .errorResponse _ =>
    let db3 := (addLocalMessage db1 now newMessageId roomId .assistant
      "The AI service failed to respond. Please try again in a moment."
      (some "Onyx AI") none).1
    { duringCall := db1, final := setRoomAiThinking db3 now roomId false, raised := false }
  | .timeout =>
    let db3 := (addLocalMessage db1 now newMessageId roomId .assistant
      "The AI service failed to respond. Please try again in a moment."
      (some "Onyx AI") none).1
    { duringCall := db1, final := setRoomAiThinking db3 now roomId false, raised := false }
  | .raised =>
    { duringCall := db1, final := setRoomAiThinking db1 now roomId false, raised := true }

/-- The HTTP-level response of the proposal-creation action. -/
inductive CreateProposalResponse
  | badRequest (error : String)
  | success (proposal : ProposalRow)
deriving DecidableEq, Repr

/-- The route's duration coercion `Number.isFinite(durationHours) &&
durationHours > 0 ? durationHours : 24` (a missing, non-numeric or non-finite
body field is `none`). -/
def normalizeDurationHours (d : Option Int) : Int :=
  match d with
  | some d => if d > 0 then d else 24
  | none => 24

/-- The `action === 'create'` branch of the vote route's `POST` handler
(authorization already passed): drop empty option labels, reject with status
400 before touching the store when the title is empty or fewer than two
options remain, normalize a non-finite or non-positive duration to 24 (a
missing or non-numeric `durationHours` is `none` here), create the proposal
and append the system message and audit entry. The route's `.trim()`
whitespace sanitization of the duck-typed body happens before this logic;
`title`, `description` and `options` here stand for the trimmed strings. -/
def routeCreateProposal (db : DB) (now : Nat)
    (newProposalId newMessageId : String) (roomId : String)
    (actorUserId : String) (title description : String) (options : List String)
    (durationHours : Option Int) : DB × CreateProposalResponse :=
  let options := options.filter (fun s => decide (s ≠ ""))
  if title = "" ∨ options.length < 2 then
    (db, .badRequest "Title and at least 2 options are required")
  else
    let created := createProposalWithOptions db now newProposalId roomId title
      description options actorUserId (normalizeDurationHours durationHours)
    let db1 := (addLocalMessage created.1 now newMessageId roomId .system
      ("New proposal created: \"" ++ title ++ "\"") (some "System")
      (some newProposalId)).1
    let db2 : DB := { db1 with auditLogs := db1.auditLogs ++
        [{ roomId := some roomId, actorUserId := some actorUserId,
           action := "vote.proposal_create", entityType := "proposal",
           entityId := some newProposalId, createdAt := now }] }
    (db2, .success created.2)

/-- The vote rows currently held by one `(proposal, user)` primary key. -/
def votesFor (votes : List VoteRow) (proposalId userId : String) : List VoteRow :=
  votes.filter (fun v => decide (v.proposalId = proposalId ∧ v.userId = userId))

/-!  Concrete fixtures used to exercise the operations on explicit states. -/

/-- A room used by the concrete fixtures. -/
def roomFix : RoomRow :=
  { id := "R", onyxSessionId := none, title := "Valle Verde Simulation",
    createdByUserId := "u1", status := .active, aiThinking := false,
    createdAt := 0, updatedAt := 0 }

/-- A proposal in `roomFix` with a given status and end timestamp. -/
def proposalFix (status : ProposalStatus) (endsAt : Nat) : ProposalRow :=
  { id := "P", roomId := "R", title := "Phase 2 Restrictions", description := "",
    createdByUserId := some "u1", status := status, durationHours := 24,
    createdAt := 0, updatedAt := 0, endsAt := endsAt, closedAt := none,
    aiResponseMessageId := none }

/-- An option of `proposalFix`. -/
def optionFix (id : String) (sortOrder : Nat) : ProposalOptionRow :=
  { id := id, proposalId := "P", label := id, sortOrder := sortOrder }

/-- A vote on `proposalFix`. -/
def voteFix (userId optionId : String) : VoteRow :=
  { proposalId := "P", optionId := optionId, userId := userId,
    createdAt := 0, updatedAt := 0 }

/-- A store holding an open two-option proposal with no votes yet. -/
def dbOpen : DB :=
  { users := [{ id := "u1", username := "alice" }, { id := "u2", username := "bob" },
              { id := "u3", username := "carol" }, { id := "u4", username := "dan" }],
    rooms := [roomFix], members := [], messages := [],
    proposals := [proposalFix .active 1000000],
    options := [optionFix "A" 0, optionFix "B" 1],
    votes := [], auditLogs := [] }

/-- The open proposal with a tied tally `{A: 2, B: 2}`. -/
def dbTie : DB :=
  { dbOpen with votes := [voteFix "u1" "A", voteFix "u2" "A",
                          voteFix "u3" "B", voteFix "u4" "B"] }

/-- The open proposal with tally `{A: 3, B: 1}`. -/
def dbMajority : DB :=
  { dbOpen with votes := [voteFix "u1" "A", voteFix "u2" "A",
                          voteFix "u3" "A", voteFix "u4" "B"] }

/-- The proposal cancelled and past its end timestamp. -/
def dbCancelled : DB :=
  { dbOpen with proposals := [proposalFix .cancelled 10] }

/-- The proposal already closed, with an AI-commentary message reference
attached. -/
def dbClosedWithRef : DB :=
  { dbOpen with proposals :=
      [{ (proposalFix .closed 10) with
           closedAt := some 20,
           aiResponseMessageId := some "m1" }] }

/-- A store whose only membership row is an active admin. -/
def dbAdminMember : DB :=
  { dbOpen with members :=
      [{ roomId := "R", userId := "u1", role := .admin, joinedAt := 0,
         updatedAt := 0, lastSeenAt := 0, isActive := true }] }

/-- The proposal still nominally active but past its end timestamp. -/
def dbExpiredActive : DB :=
  { dbOpen with proposals := [proposalFix .active 10] }

/-- The empty store. -/
def dbEmpty : DB :=
  { users := [], rooms := [], members := [], messages := [], proposals := [],
    options := [], votes := [], auditLogs := [] }

/-- A bare result row used to exercise the winner computation directly. -/
def resFix (id : String) (count : Nat) : OptionResult :=
  { optionId := id, label := id, count := count, voters := [] }

/-- The proposal row produced by a creation request whose duration, 500
hours, lies outside `[1, 168]`. -/
def propC6 : ProposalRow :=
  (createProposalWithOptions dbOpen 5 "NP" "R" "Title" "d" ["Yes", "No"] "u1" 500).2

/-- The room row inserted by `createRoomWithAdmin`. -/
def newRoomRow (now : Nat) (roomId : String) (onyxSessionId : Option String)
    (title : Option String) (creatorUserId : String) : RoomRow :=
  { id := roomId, onyxSessionId := onyxSessionId,
    title := title.getD "Valle Verde Simulation", createdByUserId := creatorUserId,
    status := .active, aiThinking := false, createdAt := now, updatedAt := now }

/-- The admin membership row inserted by `createRoomWithAdmin`. -/
def newAdminMemberRow (now : Nat) (roomId creatorUserId : String) : RoomMemberRow :=
  { roomId := roomId, userId := creatorUserId, role := .admin, joinedAt := now,
    updatedAt := now, lastSeenAt := now, isActive := true }

/-- The audit entry appended by `createRoomWithAdmin`. -/
def roomCreateAuditRow (now : Nat) (roomId creatorUserId : String) : AuditLogRow :=
  { roomId := some roomId, actorUserId := some creatorUserId, action := "room.create",
    entityType := "room", entityId := some roomId, createdAt := now }

/-!  General lemmas about the list combinators used by the embedding. -/

theorem find?_map_of_pred_invariant {α : Type} (l : List α) (p : α → Bool) (f : α → α)
    (hf : ∀ a, p (f a) = p a) : (l.map f).find? p = (l.find? p).map f := by
  induction l with
  | nil => rfl
  | cons a t ih =>
    by_cases h : p a = true
    · rw [List.map_cons, List.find?_cons_of_pos _ (by rw [hf]; exact h),
        List.find?_cons_of_pos _ h]
      rfl
    · have h' : ¬ p a = true := h
      rw [List.map_cons, List.find?_cons_of_neg _ (by rw [hf]; exact h'),
        List.find?_cons_of_neg _ h', ih]

theorem filter_map_of_pred_invariant {α : Type} (l : List α) (p : α → Bool) (f : α → α)
    (hf : ∀ a, p (f a) = p a) : (l.map f).filter p = (l.filter p).map f := by
  induction l with
  | nil => rfl
  | cons a t ih =>
    by_cases h : p a = true
    · rw [List.map_cons, List.filter_cons_of_pos (by rw [hf]; exact h),
        List.filter_cons_of_pos h, List.map_cons, ih]
    · have h' : ¬ p a = true := h
      rw [List.map_cons, List.filter_cons_of_neg (by rw [hf]; exact h'),
        List.filter_cons_of_neg h', ih]

theorem find?_append_of_some {α : Type} {l₁ l₂ : List α} {p : α → Bool} {a : α}
    (h : l₁.find? p = some a) : (l₁ ++ l₂).find? p = some a := by
  induction l₁ with
  | nil => cases h
  | cons b t ih =>
    by_cases hb : p b = true
    · rw [List.find?_cons_of_pos _ hb] at h
      rw [List.cons_append, List.find?_cons_of_pos _ hb]
      exact h
    · rw [List.find?_cons_of_neg _ hb] at h
      rw [List.cons_append, List.find?_cons_of_neg _ hb]
      exact ih h

theorem find?_append_of_none {α : Type} {l₁ : List α} {p : α → Bool}
    (h : ∀ a ∈ l₁, ¬ p a = true) (l₂ : List α) :
    (l₁ ++ l₂).find? p = l₂.find? p := by
  induction l₁ with
  | nil => rfl
  | cons b t ih =>
    rw [List.cons_append, List.find?_cons_of_neg _ (h b (List.mem_cons_self b t))]
    exact ih (fun a ha => h a (List.mem_cons_of_mem b ha))

theorem maxNat?_mem {l : List Nat} {k : Nat} (h : maxNat? l = some k) : k ∈ l := by
  induction l generalizing k with
  | nil => cases h
  | cons n t ih =>
    unfold maxNat? at h
    cases ht : maxNat? t with
    | none =>
      rw [ht] at h
      injection h with h
      exact h ▸ List.mem_cons_self n t
    | some m =>
      rw [ht] at h
      injection h with h
      rcases max_choice n m with hc | hc
      · rw [hc] at h
        exact h ▸ List.mem_cons_self n t
      · rw [hc] at h
        exact h ▸ List.mem_cons_of_mem n (ih ht)

theorem mem_insertByKeyDesc {x z : RoomSummary × Nat} {l : List (RoomSummary × Nat)}
    (h : z ∈ insertByKeyDesc x l) : z = x ∨ z ∈ l := by
  induction l with
  | nil =>
    unfold insertByKeyDesc at h
    exact Or.inl (List.mem_singleton.mp h)
  | cons y ys ih =>
    unfold insertByKeyDesc at h
    by_cases hc : y.2 < x.2
    · rw [if_pos hc] at h
      rcases List.mem_cons.mp h with h1 | h1
      · exact Or.inl h1
      · exact Or.inr h1
    · rw [if_neg hc] at h
      rcases List.mem_cons.mp h with h1 | h1
      · exact Or.inr (h1 ▸ List.mem_cons_self y ys)
      · rcases ih h1 with h2 | h2
        · exact Or.inl h2
        · exact Or.inr (List.mem_cons_of_mem y h2)

theorem mem_sortByKeyDesc {z : RoomSummary × Nat} {l : List (RoomSummary × Nat)}
    (h : z ∈ sortByKeyDesc l) : z ∈ l := by
  induction l with
  | nil => cases h
  | cons y ys ih =>
    unfold sortByKeyDesc at h
    rcases mem_insertByKeyDesc h with h1 | h1
    · exact h1 ▸ List.mem_cons_self y ys
    · exact List.mem_cons_of_mem y (ih h1)

theorem head?_sortByKeyDesc {l : List (RoomSummary × Nat)} {x : RoomSummary × Nat}
    (hx : x ∈ l) (hmax : ∀ y ∈ l, y.2 < x.2 ∨ y = x) :
    (sortByKeyDesc l).head? = some x := by
  induction l with
  | nil => cases hx
  | cons a t ih =>
    show (insertByKeyDesc a (sortByKeyDesc t)).head? = some x
    by_cases hmemt : x ∈ t
    · have hh := ih hmemt (fun y hy => hmax y (List.mem_cons_of_mem a hy))
      cases hsort : sortByKeyDesc t with
      | nil => rw [hsort] at hh; cases hh
      | cons y ys =>
        rw [hsort] at hh
        have hyx : y = x := by
          have := List.head?_cons (a := y) (l := ys)
          rw [this] at hh
          injection hh
        subst hyx
        unfold insertByKeyDesc
        rcases hmax a (List.mem_cons_self a t) with ha | ha
        · rw [if_neg (Nat.lt_asymm ha)]
          rfl
        · rw [ha, if_neg (Nat.lt_irrefl _)]
          rfl
    · have hxa : x = a := by
        rcases List.mem_cons.mp hx with h1 | h1
        · exact h1
        · exact absurd h1 hmemt
      subst hxa
      cases hsort : sortByKeyDesc t with
      | nil => rfl
      | cons y ys =>
        have hyt : y ∈ t := mem_sortByKeyDesc (hsort ▸ List.mem_cons_self y ys)
        unfold insertByKeyDesc
        rcases hmax y (List.mem_cons_of_mem x hyt) with hy | hy
        · rw [if_pos hy]
          rfl
        · subst hy
          rw [if_neg (Nat.lt_irrefl _)]
          rfl

theorem pickWinner_some (w : WinnerView) (r : OptionResult) :
    pickWinner (some w) r = if r.count > w.count then some (toWinner r) else some w := rfl

theorem pickWinner_none (r : OptionResult) : pickWinner none r = some (toWinner r) := rfl

theorem computeWinner_fold_eq {results : List OptionResult} {w' : WinnerView}
    (h : results.foldl pickWinner none = some w') :
    computeWinner results = if w'.count = 0 then none else some w' := by
  unfold computeWinner
  rw [h]

theorem foldl_pickWinner_some (t : List OptionResult) (w : WinnerView) :
    ∃ w', t.foldl pickWinner (some w) = some w' := by
  induction t generalizing w with
  | nil => exact ⟨w, rfl⟩
  | cons a t ih =>
    rw [List.foldl_cons, pickWinner_some]
    by_cases h : a.count > w.count
    · rw [if_pos h]; exact ih _
    · rw [if_neg h]; exact ih _

theorem foldl_pickWinner_spec (results : List OptionResult) :
    ∀ w w' : WinnerView, results.foldl pickWinner (some w) = some w' →
      (w' = w ∧ ∀ r ∈ results, r.count ≤ w.count) ∨
      (∃ l1 r l2, results = l1 ++ r :: l2 ∧ w' = toWinner r ∧ w.count < r.count ∧
        (∀ x ∈ l1, x.count < r.count) ∧ (∀ x ∈ l2, x.count ≤ r.count)) := by
  induction results with
  | nil =>
    intro w w' h
    left
    refine ⟨?_, by simp⟩
    injection h with h
    exact h.symm
  | cons a t ih =>
    intro w w' h
    rw [List.foldl_cons, pickWinner_some] at h
    by_cases hc : a.count > w.count
    · rw [if_pos hc] at h
      rcases ih (toWinner a) w' h with ⟨hw, hall⟩ | ⟨l1, r, l2, ht, hw, hlt, h1, h2⟩
      · right
        exact ⟨[], a, t, rfl, hw, hc, fun x hx => absurd hx (List.not_mem_nil x),
          fun x hx => hall x hx⟩
      · right
        refine ⟨a :: l1, r, l2, by rw [ht]; rfl, hw, lt_trans hc hlt, ?_, h2⟩
        intro x hx
        rcases List.mem_cons.mp hx with h3 | h3
        · exact h3 ▸ hlt
        · exact h1 x h3
    · have hc' : a.count ≤ w.count := Nat.le_of_not_lt hc
      rw [if_neg hc] at h
      rcases ih w w' h with ⟨hw, hall⟩ | ⟨l1, r, l2, ht, hw, hlt, h1, h2⟩
      · left
        refine ⟨hw, ?_⟩
        intro r hr
        rcases List.mem_cons.mp hr with h3 | h3
        · exact h3 ▸ hc'
        · exact hall r h3
      · right
        refine ⟨a :: l1, r, l2, by rw [ht]; rfl, hw, hlt, ?_, h2⟩
        intro x hx
        rcases List.mem_cons.mp hx with h3 | h3
        · exact h3 ▸ lt_of_le_of_lt hc' hlt
        · exact h1 x h3

theorem foldl_pickWinner_none_cons (r₀ : OptionResult) (rest : List OptionResult) :
    (r₀ :: rest).foldl pickWinner none = rest.foldl pickWinner (some (toWinner r₀)) := by
  rw [List.foldl_cons, pickWinner_none]

theorem computeWinner_eq_none_iff (results : List OptionResult) :
    computeWinner results = none ↔ ∀ r ∈ results, r.count = 0 := by
  cases results with
  | nil => simp [computeWinner]
  | cons r₀ rest =>
    obtain ⟨w', hw'⟩ := foldl_pickWinner_some rest (toWinner r₀)
    have hfold : (r₀ :: rest).foldl pickWinner none = some w' := by
      rw [foldl_pickWinner_none_cons]
      exact hw'
    rw [computeWinner_fold_eq hfold]
    constructor
    · intro h
      by_cases hz : w'.count = 0
      · rcases foldl_pickWinner_spec rest (toWinner r₀) w' hw' with
          ⟨hw, hall⟩ | ⟨l1, r, l2, ht, hw, hlt, h1, h2⟩
        · have hr0 : r₀.count = 0 := by
            rw [hw] at hz
            exact hz
          intro x hx
          rcases List.mem_cons.mp hx with h3 | h3
          · rw [h3]; exact hr0
          · have : x.count ≤ r₀.count := hall x h3
            rw [hr0] at this
            exact Nat.le_zero.mp this
        · have hr0 : r.count = 0 := by
            rw [hw] at hz
            exact hz
          have : r₀.count < r.count := hlt
          rw [hr0] at this
          exact absurd this (Nat.not_lt_zero _)
      · rw [if_neg hz] at h
        cases h
    · intro h
      have hz : w'.count = 0 := by
        rcases foldl_pickWinner_spec rest (toWinner r₀) w' hw' with
          ⟨hw, _⟩ | ⟨l1, r, l2, ht, hw, _, _, _⟩
        · rw [hw]
          show r₀.count = 0
          exact h r₀ (List.mem_cons_self r₀ rest)
        · rw [hw]
          show r.count = 0
          exact h r (List.mem_cons_of_mem r₀ (ht ▸ List.mem_append_right l1
            (List.mem_cons_self r l2)))
      rw [if_pos hz]

theorem computeWinner_eq_some (results : List OptionResult) (w : WinnerView)
    (h : computeWinner results = some w) :
    ∃ l1 r l2, results = l1 ++ r :: l2 ∧ w = toWinner r ∧ 0 < r.count ∧
      (∀ x ∈ l1, x.count < r.count) ∧ (∀ x ∈ l2, x.count ≤ r.count) := by
  cases results with
  | nil => cases h
  | cons r₀ rest =>
    obtain ⟨w', hw'⟩ := foldl_pickWinner_some rest (toWinner r₀)
    have hfold : (r₀ :: rest).foldl pickWinner none = some w' := by
      rw [foldl_pickWinner_none_cons]
      exact hw'
    rw [computeWinner_fold_eq hfold] at h
    by_cases hz : w'.count = 0
    · rw [if_pos hz] at h
      cases h
    · rw [if_neg hz] at h
      injection h with h
      subst h
      rcases foldl_pickWinner_spec rest (toWinner r₀) w' hw' with
        ⟨hw, hall⟩ | ⟨l1, r, l2, ht, hw, hlt, h1, h2⟩
      · refine ⟨[], r₀, rest, rfl, hw, ?_, fun x hx => absurd hx (List.not_mem_nil x), ?_⟩
        · have hcnt : w'.count = r₀.count := by rw [hw]; rfl
          rw [hcnt] at hz
          exact Nat.pos_of_ne_zero hz
        · intro x hx
          have := hall x hx
          exact this
      · refine ⟨r₀ :: l1, r, l2, by rw [ht]; rfl, hw, ?_, ?_, h2⟩
        · have hcnt : w'.count = r.count := by rw [hw]; rfl
          rw [hcnt] at hz
          exact Nat.pos_of_ne_zero hz
        · intro x hx
          rcases List.mem_cons.mp hx with h3 | h3
          · exact h3 ▸ hlt
          · exact h1 x h3

theorem votesFor_upsert (votes : List VoteRow) (now : Nat) (pid oid uid : String)
    (h : (votesFor votes pid uid).length ≤ 1) :
    (votesFor (upsertVoteRow votes now pid oid uid) pid uid).map
      (fun v => (v.proposalId, v.optionId, v.userId)) = [(pid, oid, uid)] := by
  unfold upsertVoteRow
  by_cases hany : votes.any (fun v => decide (v.proposalId = pid ∧ v.userId = uid)) = true
  · rw [if_pos hany]
    unfold votesFor at h ⊢
    rw [filter_map_of_pred_invariant votes _ _ ?_]
    · have hne : votes.filter (fun v => decide (v.proposalId = pid ∧ v.userId = uid)) ≠ [] := by
        obtain ⟨x, hx, hpx⟩ := List.any_eq_true.mp hany
        intro hnil
        have hmem : x ∈ votes.filter (fun v => decide (v.proposalId = pid ∧ v.userId = uid)) :=
          List.mem_filter.mpr ⟨hx, hpx⟩
        rw [hnil] at hmem
        cases hmem
      have hlen1 : (votes.filter (fun v => decide (v.proposalId = pid ∧ v.userId = uid))).length
          = 1 := by
        cases hfil : votes.filter (fun v => decide (v.proposalId = pid ∧ v.userId = uid)) with
        | nil => exact absurd hfil hne
        | cons a t =>
          rw [hfil] at h
          simp only [List.length_cons] at h ⊢
          omega
      obtain ⟨v0, hv0⟩ := List.length_eq_one.mp hlen1
      rw [hv0]
      have hmem0 : v0 ∈ votes.filter (fun v => decide (v.proposalId = pid ∧ v.userId = uid)) := by
        rw [hv0]
        exact List.mem_cons_self v0 []
      obtain ⟨hpid, huid⟩ := of_decide_eq_true (List.mem_filter.mp hmem0).2
      rw [List.map_cons, List.map_cons, List.map_nil, List.map_nil]
      rw [if_pos ⟨hpid, huid⟩]
      simp [hpid, huid]
    · intro a
      by_cases ha : a.proposalId = pid ∧ a.userId = uid
      · rw [if_pos ha]
      · rw [if_neg ha]
  · rw [if_neg hany]
    unfold votesFor
    rw [List.filter_append votes _]
    have hnil : votes.filter (fun v => decide (v.proposalId = pid ∧ v.userId = uid)) = [] := by
      rw [List.filter_eq_nil_iff]
      exact List.any_eq_false.mp (Bool.not_eq_true _ ▸ hany)
    rw [hnil]
    simp

/-!  Claim C1. -/

/-- C1 counterexample: on a proposal whose tally is {A: 2, B: 2} (fixture
`dbTie`), `getVoteResultsForProposal` returns option A — the first option in
sort order — as winner, not the null winner the claim requires for a tie. -/
theorem getVoteResults_tie_winner_not_null :
    ((getVoteResultsForProposal dbTie 5 "R" "P").2.map (fun v => v.winner))
        = some (some { optionId := "A", label := "A", count := 2 }) ∧
    some (some { optionId := "A", label := "A", count := 2 }) ≠
      (some (none : Option WinnerView)) :=
  ⟨rfl, by decide⟩

/-- C1 (amended): the winner computed by `getVoteResultsForProposal` is null
exactly when every option has zero votes; otherwise it is the first option in
the result order (ascending sort position) among those with the maximum vote
count — a tie is broken in favour of the earliest option, never reported as
null. On the tally {A: 3, B: 1} the winner is A, and on the tie {A: 2, B: 2}
the winner is A as well. -/
theorem getVoteResults_winner_first_max :
    (∀ results : List OptionResult,
      computeWinner results = none ↔ ∀ r ∈ results, r.count = 0) ∧
    (∀ (results : List OptionResult) (w : WinnerView), computeWinner results = some w →
      ∃ l1 r l2, results = l1 ++ r :: l2 ∧ w = toWinner r ∧ 0 < r.count ∧
        (∀ x ∈ l1, x.count < r.count) ∧ (∀ x ∈ l2, x.count ≤ r.count)) ∧
    ((getVoteResultsForProposal dbMajority 5 "R" "P").2.map (fun v => v.winner)
        = some (some { optionId := "A", label := "A", count := 3 })) ∧
    ((getVoteResultsForProposal dbTie 5 "R" "P").2.map (fun v => v.winner)
        = some (some { optionId := "A", label := "A", count := 2 })) :=
  ⟨computeWinner_eq_none_iff, computeWinner_eq_some, rfl, rfl⟩

/-- Witness for the C1 theorem at concrete inputs. -/
theorem getVoteResults_winner_first_max_witness :
    (computeWinner [resFix "A" 0, resFix "B" 0] = none ↔
      ∀ r ∈ [resFix "A" 0, resFix "B" 0], r.count = 0) ∧
    (∃ l1 r l2, [resFix "A" 2, resFix "B" 2] = l1 ++ r :: l2 ∧
      ({ optionId := "A", label := "A", count := 2 } : WinnerView) = toWinner r ∧
      0 < r.count ∧ (∀ x ∈ l1, x.count < r.count) ∧ (∀ x ∈ l2, x.count ≤ r.count)) :=
  ⟨getVoteResults_winner_first_max.1 [resFix "A" 0, resFix "B" 0],
   getVoteResults_winner_first_max.2.1 [resFix "A" 2, resFix "B" 2]
     { optionId := "A", label := "A", count := 2 } (by decide)⟩

/-!  Claim C2. -/

theorem castVote_success_step (db : DB) (now : Nat)
    (roomId proposalId userId optionId : String) (p : ProposalRow)
    (hfind : findProposalInRoom db.proposals proposalId roomId = some p)
    (hact : p.status = .active) (hend : now < p.endsAt)
    (hopt : (findOptionOfProposal db.options optionId proposalId).isSome = true) :
    castVoteForProposal db now roomId proposalId userId optionId
      = ({ db with votes := upsertVoteRow db.votes now proposalId optionId userId },
         .success) := by
  obtain ⟨o, ho⟩ := Option.isSome_iff_exists.mp hopt
  have hcond : ¬(p.status ≠ ProposalStatus.active ∨ p.endsAt ≤ now) := by
    rintro (hc | hc)
    · exact hc hact
    · exact absurd (lt_of_le_of_lt hc hend) (Nat.lt_irrefl _)
  unfold castVoteForProposal
  rw [hfind]
  simp only
  rw [if_neg hcond, ho]

/-- C2 (confirmed): for a user `U` and a live proposal `P` (active status, end
time not yet reached), casting a vote for `optA` and then for `optB` succeeds
both times and leaves exactly one vote row keyed by `(P, U)`, and that row
references `optB` — re-voting overwrites the prior choice instead of adding a
second row (given the store respects the `(proposal_id, user_id)` primary
key, i.e. holds at most one row for that key to begin with). -/
theorem castVote_revote_overwrites
    (db : DB) (now1 now2 : Nat) (roomId proposalId userId optA optB : String)
    (p : ProposalRow)
    (hfind : findProposalInRoom db.proposals proposalId roomId = some p)
    (hact : p.status = .active)
    (hend1 : now1 < p.endsAt) (hend2 : now2 < p.endsAt)
    (hA : (findOptionOfProposal db.options optA proposalId).isSome = true)
    (hB : (findOptionOfProposal db.options optB proposalId).isSome = true)
    (hpk : (votesFor db.votes proposalId userId).length ≤ 1) :
    (castVoteForProposal db now1 roomId proposalId userId optA).2 = .success ∧
    (castVoteForProposal (castVoteForProposal db now1 roomId proposalId userId optA).1
        now2 roomId proposalId userId optB).2 = .success ∧
    (votesFor
        (castVoteForProposal (castVoteForProposal db now1 roomId proposalId userId optA).1
          now2 roomId proposalId userId optB).1.votes proposalId userId).map
      (fun v => (v.proposalId, v.optionId, v.userId)) = [(proposalId, optB, userId)] := by
  have hstep1 := castVote_success_step db now1 roomId proposalId userId optA p hfind hact
    hend1 hA
  have hstep2 := castVote_success_step
    { db with votes := upsertVoteRow db.votes now1 proposalId optA userId } now2 roomId
    proposalId userId optB p hfind hact hend2 hB
  have h1 := votesFor_upsert db.votes now1 proposalId optA userId hpk
  have hlen : (votesFor (upsertVoteRow db.votes now1 proposalId optA userId)
      proposalId userId).length ≤ 1 := by
    have := congrArg List.length h1
    simp only [List.length_map] at this
    rw [this]
    simp
  have h2 := votesFor_upsert (upsertVoteRow db.votes now1 proposalId optA userId) now2
    proposalId optB userId hlen
  refine ⟨by rw [hstep1], ?_, ?_⟩
  · rw [hstep1]
    rw [hstep2]
  · rw [hstep1]
    rw [hstep2]
    exact h2

/-- Witness for the C2 theorem: on the concrete open proposal, `u1` votes for
`A` and then for `B`; afterwards exactly one `(P, u1)` vote row exists and it
references `B`. -/
theorem castVote_revote_overwrites_witness :
    (castVoteForProposal dbOpen 5 "R" "P" "u1" "A").2 = .success ∧
    (castVoteForProposal (castVoteForProposal dbOpen 5 "R" "P" "u1" "A").1
        6 "R" "P" "u1" "B").2 = .success ∧
    (votesFor
        (castVoteForProposal (castVoteForProposal dbOpen 5 "R" "P" "u1" "A").1
          6 "R" "P" "u1" "B").1.votes "P" "u1").map
      (fun v => (v.proposalId, v.optionId, v.userId)) = [("P", "B", "u1")] :=
  castVote_revote_overwrites dbOpen 5 6 "R" "P" "u1" "A" "B"
    (proposalFix .active 1000000) (by decide) (by decide) (by decide) (by decide)
    (by decide) (by decide) (by decide)

/-!  Claim C3. -/

theorem findProposalInRoom_keys {proposals : List ProposalRow} {pid rid : String}
    {p : ProposalRow} (h : findProposalInRoom proposals pid rid = some p) :
    p.id = pid ∧ p.roomId = rid := by
  unfold findProposalInRoom at h
  have hp := List.find?_some h
  exact of_decide_eq_true hp

/-- C3 counterexample: a proposal in the reserved `cancelled` state whose end
timestamp has passed (fixture `dbCancelled`, end 10, attempt at 100) rejects
the vote with "Voting is closed", but its status stays `cancelled` — it does
not become `closed` as the claim requires of every expired proposal. -/
theorem castVote_expired_cancelled_counterexample :
    castVoteForProposal dbCancelled 100 "R" "P" "u1" "A"
      = (dbCancelled, .failure "Voting is closed") ∧
    (castVoteForProposal dbCancelled 100 "R" "P" "u1" "A").1.proposals.map
      (fun p => p.status) = [ProposalStatus.cancelled] ∧
    ProposalStatus.cancelled ≠ ProposalStatus.closed :=
  ⟨rfl, rfl, by decide⟩

/-- C3 (amended): for every proposal whose end timestamp has passed and which
is not in the reserved `cancelled` state, a subsequent `castVote` attempt
fails with "Voting is closed" and inserts no vote row; as a side effect the
proposal's status is closed afterwards — flipped, with the attempt time as
closed timestamp, if it was still nominally active, and left unchanged if it
was already closed. (A cancelled proposal gets the same rejection but keeps
its `cancelled` status, as the counterexample shows.) -/
theorem castVote_expired_self_healing
    (db : DB) (now : Nat) (roomId proposalId userId optionId : String) (p : ProposalRow)
    (hfind : findProposalInRoom db.proposals proposalId roomId = some p)
    (hexp : p.endsAt ≤ now)
    (hnc : p.status ≠ .cancelled) :
    (castVoteForProposal db now roomId proposalId userId optionId).2
        = .failure "Voting is closed" ∧
    (castVoteForProposal db now roomId proposalId userId optionId).1.votes = db.votes ∧
    ∃ q, findProposalInRoom
        (castVoteForProposal db now roomId proposalId userId optionId).1.proposals
        proposalId roomId = some q ∧
      q.status = .closed ∧
      (p.status = .active → q.closedAt = some now) ∧
      (p.status = .closed → q = p) := by
  have hcond : p.status ≠ ProposalStatus.active ∨ p.endsAt ≤ now := Or.inr hexp
  have heq : castVoteForProposal db now roomId proposalId userId optionId
      = ((if p.status = .active then
            { db with proposals := db.proposals.map (fun q =>
                if q.id = proposalId then closeProposalRow now q else q) }
          else db), .failure "Voting is closed") := by
    unfold castVoteForProposal
    rw [hfind]
    simp only
    rw [if_pos hcond]
  obtain ⟨hid, hrid⟩ := findProposalInRoom_keys hfind
  rw [heq]
  cases hst : p.status with
  | active =>
    rw [if_pos rfl]
    refine ⟨rfl, rfl, closeProposalRow now p, ?_, rfl, fun _ => rfl, fun hc => nomatch hc⟩
    unfold findProposalInRoom at hfind ⊢
    rw [find?_map_of_pred_invariant _ _ _ ?_]
    · rw [hfind]
      show some (if p.id = proposalId then closeProposalRow now p else p)
        = some (closeProposalRow now p)
      rw [if_pos hid]
    · intro a
      by_cases ha : a.id = proposalId
      · rw [if_pos ha]
        rfl
      · rw [if_neg ha]
  | closed =>
    rw [if_neg (fun hc => nomatch hc)]
    refine ⟨rfl, rfl, p, hfind, hst, ?_, fun _ => rfl⟩
    intro hc
    exact absurd hc (by decide)
  | cancelled => exact absurd hst hnc

/-- Witness for the C3 theorem: the still-active but expired fixture
proposal. -/
theorem castVote_expired_self_healing_witness :
    (castVoteForProposal dbExpiredActive 100 "R" "P" "u1" "A").2
        = .failure "Voting is closed" ∧
    (castVoteForProposal dbExpiredActive 100 "R" "P" "u1" "A").1.votes
        = dbExpiredActive.votes ∧
    ∃ q, findProposalInRoom
        (castVoteForProposal dbExpiredActive 100 "R" "P" "u1" "A").1.proposals
        "P" "R" = some q ∧
      q.status = .closed ∧
      ((proposalFix .active 10).status = .active → q.closedAt = some 100) ∧
      ((proposalFix .active 10).status = .closed → q = proposalFix .active 10) :=
  castVote_expired_self_healing dbExpiredActive 100 "R" "P" "u1" "A"
    (proposalFix .active 10) (by decide) (by decide) (by decide)

/-!  Claim C4. -/

/-- C4 counterexample: the fixture proposal already carries the attached
reference `m1`; closing it again with `aiResponseMessageId = m2` succeeds and
replaces the reference with `m2` — the previously attached reference is
overwritten, contradicting the claim's first-writer-wins reading. -/
theorem closeProposal_overwrites_ref_counterexample :
    dbClosedWithRef.proposals.map (fun p => p.aiResponseMessageId) = [some "m1"] ∧
    (closeProposalById dbClosedWithRef 30 "R" "P" (some "m2")).2 = .success ∧
    (closeProposalById dbClosedWithRef 30 "R" "P" (some "m2")).1.proposals.map
      (fun p => p.aiResponseMessageId) = [some "m2"] :=
  ⟨rfl, rfl, rfl⟩

/-- C4 (amended): `closeProposal` is an idempotent terminal transition — it
succeeds on any existing proposal, already-closed ones included, and leaves
it closed — but the reference semantics is the reverse of the claim: the
update is `coalesce(new, existing)`, so a supplied `aiResponseMessageId`
always overwrites a previously attached reference (the last supplied writer
wins), and only a close without an id preserves the existing reference. -/
theorem closeProposal_idempotent_ref
    (db : DB) (now : Nat) (roomId proposalId : String) (ai : Option String)
    (p : ProposalRow)
    (hfind : findProposalInRoom db.proposals proposalId roomId = some p) :
    (closeProposalById db now roomId proposalId ai).2 = .success ∧
    ∃ q, findProposalInRoom (closeProposalById db now roomId proposalId ai).1.proposals
        proposalId roomId = some q ∧
      q.status = .closed ∧ q.closedAt = some now ∧
      q.aiResponseMessageId = (match ai with
        | some m => some m
        | none => p.aiResponseMessageId) := by
  obtain ⟨hid, hrid⟩ := findProposalInRoom_keys hfind
  have hmem : p ∈ db.proposals := by
    unfold findProposalInRoom at hfind
    exact List.mem_of_find?_eq_some hfind
  have hany : db.proposals.any
      (fun q => decide (q.id = proposalId ∧ q.roomId = roomId)) = true :=
    List.any_eq_true.mpr ⟨p, hmem, by rw [decide_eq_true_eq]; exact ⟨hid, hrid⟩⟩
  unfold closeProposalById
  rw [if_pos hany]
  refine ⟨rfl,
    { p with status := .closed, closedAt := some now, updatedAt := now,
             aiResponseMessageId := match ai with
               | some m => some m
               | none => p.aiResponseMessageId },
    ?_, rfl, rfl, rfl⟩
  unfold findProposalInRoom at hfind ⊢
  rw [find?_map_of_pred_invariant _ _ _ ?_]
  · rw [hfind]
    show some (if p.id = proposalId ∧ p.roomId = roomId then _ else p) = _
    rw [if_pos ⟨hid, hrid⟩]
  · intro a
    by_cases ha : a.id = proposalId ∧ a.roomId = roomId
    · rw [if_pos ha]
    · rw [if_neg ha]

/-- Witness for the C4 theorem: re-closing the already-closed fixture
proposal with a new reference `m2`. -/
theorem closeProposal_idempotent_ref_witness :
    (closeProposalById dbClosedWithRef 30 "R" "P" (some "m2")).2 = .success ∧
    ∃ q, findProposalInRoom
        (closeProposalById dbClosedWithRef 30 "R" "P" (some "m2")).1.proposals
        "P" "R" = some q ∧
      q.status = .closed ∧ q.closedAt = some 30 ∧
      q.aiResponseMessageId = (match (some "m2" : Option String) with
        | some m => some m
        | none => ({ (proposalFix .closed 10) with
            closedAt := some 20,
            aiResponseMessageId := some "m1" } : ProposalRow).aiResponseMessageId) :=
  closeProposal_idempotent_ref dbClosedWithRef 30 "R" "P" (some "m2")
    { (proposalFix .closed 10) with
      closedAt := some 20, aiResponseMessageId := some "m1" } rfl

/-!  Claim C5. -/

/-- C5 (confirmed): with a duration within `[1, 168]` hours and a fresh
proposal id, `createProposalWithOptions` creates exactly one proposal row —
whose creation timestamp is the call time, whose stored duration is the
requested one, and whose end timestamp equals the creation timestamp plus the
duration in hours — together with exactly one option row per label at
sequential sort positions `0..n-1` in the given order. -/
theorem createProposal_rows
    (db : DB) (now : Nat)
    (newProposalId roomId title description createdByUserId : String)
    (options : List String) (durationHours : Int) (db' : DB) (created : ProposalRow)
    (hdur1 : 1 ≤ durationHours) (hdur2 : durationHours ≤ 168)
    (hfreshP : ∀ p ∈ db.proposals, p.id ≠ newProposalId)
    (hfreshO : ∀ o ∈ db.options, o.proposalId ≠ newProposalId)
    (hrun : createProposalWithOptions db now newProposalId roomId title description
        options createdByUserId durationHours = (db', created)) :
    db'.proposals.filter (fun p => decide (p.id = newProposalId)) = [created] ∧
    created.createdAt = now ∧
    created.durationHours = durationHours ∧
    created.endsAt = created.createdAt + durationHours.toNat * 3600000 ∧
    (db'.options.filter (fun o => decide (o.proposalId = newProposalId))).map
      (fun o => (o.sortOrder, o.label)) = options.enum := by
  have hsafe : max 1 (min durationHours 168) = durationHours := by omega
  unfold createProposalWithOptions at hrun
  simp only [hsafe] at hrun
  rw [Prod.mk.injEq] at hrun
  obtain ⟨hdb, hcr⟩ := hrun
  subst hdb
  subst hcr
  refine ⟨?_, rfl, rfl, rfl, ?_⟩
  · show (db.proposals ++ [_]).filter _ = _
    rw [List.filter_append db.proposals _]
    have hnil : db.proposals.filter (fun p => decide (p.id = newProposalId)) = [] := by
      rw [List.filter_eq_nil_iff]
      intro a ha
      simp only [decide_eq_true_eq]
      exact hfreshP a ha
    rw [hnil]
    simp
  · show ((db.options ++ _).filter _).map _ = _
    rw [List.filter_append db.options _]
    have hnil : db.options.filter (fun o => decide (o.proposalId = newProposalId)) = [] := by
      rw [List.filter_eq_nil_iff]
      intro a ha
      simp only [decide_eq_true_eq]
      exact hfreshO a ha
    rw [hnil]
    have hkeep : (options.enum.map (fun pair =>
        ({ id := newProposalId ++ "#" ++ toString pair.1, proposalId := newProposalId,
           label := pair.2, sortOrder := pair.1 } : ProposalOptionRow))).filter
        (fun o => decide (o.proposalId = newProposalId))
        = options.enum.map (fun pair =>
          ({ id := newProposalId ++ "#" ++ toString pair.1, proposalId := newProposalId,
             label := pair.2, sortOrder := pair.1 } : ProposalOptionRow)) := by
      rw [List.filter_eq_self]
      intro a ha
      obtain ⟨pair, _, hpa⟩ := List.mem_map.mp ha
      rw [← hpa]
      simp
    rw [List.nil_append, hkeep, List.map_map]
    have hcomp : ((fun (o : ProposalOptionRow) => (o.sortOrder, o.label)) ∘
        (fun (pair : Nat × String) =>
          ({ id := newProposalId ++ "#" ++ toString pair.1, proposalId := newProposalId,
             label := pair.2, sortOrder := pair.1 } : ProposalOptionRow)))
        = fun (pair : Nat × String) => (pair.1, pair.2) := rfl
    rw [hcomp]
    simp

/-- Witness for the C5 theorem: a proposal with options `["Yes", "No"]` and a
24-hour duration yields `endsAt = createdAt + 24h` and exactly two option
rows at sort positions 0 and 1. -/
theorem createProposal_rows_witness :
    (createProposalWithOptions dbOpen 5 "NP" "R" "T" "" ["Yes", "No"] "u1" 24).1.proposals.filter
      (fun p => decide (p.id = "NP"))
      = [(createProposalWithOptions dbOpen 5 "NP" "R" "T" "" ["Yes", "No"] "u1" 24).2] ∧
    (createProposalWithOptions dbOpen 5 "NP" "R" "T" "" ["Yes", "No"] "u1" 24).2.createdAt = 5 ∧
    (createProposalWithOptions dbOpen 5 "NP" "R" "T" "" ["Yes", "No"] "u1" 24).2.durationHours
      = 24 ∧
    (createProposalWithOptions dbOpen 5 "NP" "R" "T" "" ["Yes", "No"] "u1" 24).2.endsAt
      = (createProposalWithOptions dbOpen 5 "NP" "R" "T" "" ["Yes", "No"] "u1" 24).2.createdAt
        + (24 : Int).toNat * 3600000 ∧
    ((createProposalWithOptions dbOpen 5 "NP" "R" "T" "" ["Yes", "No"] "u1" 24).1.options.filter
        (fun o => decide (o.proposalId = "NP"))).map
      (fun o => (o.sortOrder, o.label)) = (["Yes", "No"] : List String).enum :=
  createProposal_rows dbOpen 5 "NP" "R" "T" "" "u1" ["Yes", "No"] 24
    (createProposalWithOptions dbOpen 5 "NP" "R" "T" "" ["Yes", "No"] "u1" 24).1
    (createProposalWithOptions dbOpen 5 "NP" "R" "T" "" ["Yes", "No"] "u1" 24).2
    (by decide) (by decide) (by decide) (by decide) rfl

/-!  Claim C6. -/

/-- C6 counterexample: a creation request with a valid title, two options and
an out-of-range duration of 500 hours is not rejected — it succeeds, and the
proposal row is persisted with the duration silently clamped to 168. -/
theorem routeCreate_duration_not_rejected_counterexample :
    (routeCreateProposal dbOpen 5 "NP" "NM" "R" "u1" "Title" "d" ["Yes", "No"]
        (some 500)).2 = .success propC6 ∧
    propC6 ∈ (routeCreateProposal dbOpen 5 "NP" "NM" "R" "u1" "Title" "d" ["Yes", "No"]
        (some 500)).1.proposals ∧
    propC6.durationHours = 168 ∧
    ¬(1 ≤ (500 : Int) ∧ (500 : Int) ≤ 168) :=
  ⟨rfl, by decide, rfl, by decide⟩

/-- C6 (amended): a creation request with an empty (trimmed) title or fewer
than two non-empty options is rejected synchronously with the validation
error surfaced verbatim and no state change; an out-of-range voting duration
is NOT rejected — a non-positive or non-numeric duration is defaulted to 24
and the result is clamped into `[1, 168]`, after which the proposal is
created and persisted. -/
theorem routeCreate_validation
    (db : DB) (now : Nat) (npid nmid roomId actor title desc : String)
    (options : List String) (dur : Option Int) :
    ((title = "" ∨ (options.filter (fun s => decide (s ≠ ""))).length < 2) →
      routeCreateProposal db now npid nmid roomId actor title desc options dur
        = (db, .badRequest "Title and at least 2 options are required")) ∧
    (¬(title = "" ∨ (options.filter (fun s => decide (s ≠ ""))).length < 2) →
      ∃ created,
        (routeCreateProposal db now npid nmid roomId actor title desc options dur).2
          = .success created ∧
        created.durationHours = max 1 (min (normalizeDurationHours dur) 168) ∧
        created ∈ (routeCreateProposal db now npid nmid roomId actor title desc
          options dur).1.proposals) := by
  constructor
  · intro h
    simp only [routeCreateProposal]
    rw [if_pos h]
  · intro h
    refine ⟨(createProposalWithOptions db now npid roomId title desc
        (options.filter (fun s => decide (s ≠ "")))
        actor (normalizeDurationHours dur)).2, ?_, rfl, ?_⟩
    · simp only [routeCreateProposal]
      rw [if_neg h]
    · simp only [routeCreateProposal]
      rw [if_neg h]
      exact List.mem_append_right _ (List.mem_cons_self _ [])

/-- Witness for the C6 theorem: an empty title is rejected with no state
change, and a 500-hour duration is accepted with the duration clamped. -/
theorem routeCreate_validation_witness :
    routeCreateProposal dbOpen 5 "X1" "M1" "R" "u1" "" "d" ["Yes", "No"] (some 24)
      = (dbOpen, .badRequest "Title and at least 2 options are required") ∧
    ∃ created,
      (routeCreateProposal dbOpen 6 "X2" "M2" "R" "u1" "T" "d" ["Yes", "No"]
          (some 500)).2 = .success created ∧
      created.durationHours = max 1 (min (normalizeDurationHours (some 500)) 168) ∧
      created ∈ (routeCreateProposal dbOpen 6 "X2" "M2" "R" "u1" "T" "d" ["Yes", "No"]
        (some 500)).1.proposals :=
  ⟨(routeCreate_validation dbOpen 5 "X1" "M1" "R" "u1" "" "d" ["Yes", "No"]
      (some 24)).1 (by decide),
   (routeCreate_validation dbOpen 6 "X2" "M2" "R" "u1" "T" "d" ["Yes", "No"]
      (some 500)).2 (by decide)⟩

/-!  Claim C7. -/

/-- C7 (code bug): the claim — and the spec — say a default-role re-upsert
leaves an existing admin's role unchanged, but the upsert's conflict clause
sets `role = excluded.role`. On a store whose only membership is an active
admin (fixture `dbAdminMember`), `upsertRoomMember` without an explicit role
reactivates the row and refreshes `lastSeenAt`, but also demotes the admin to
`member`. Since this very upsert runs on every room access before the route's
admin checks, the code's own admin-only actions become unreachable, so the
code, not the claim, is wrong. -/
theorem upsertRoomMember_demotes_admin :
    dbAdminMember.members.map (fun m => m.role) = [RoomMemberRole.admin] ∧
    (upsertRoomMember dbAdminMember 9 "R" "u1" none).members.map
      (fun m => (m.role, m.isActive, m.lastSeenAt))
      = [(RoomMemberRole.member, true, 9)] :=
  ⟨rfl, rfl⟩

/-!  Claim C8. -/

theorem find?_append_singleton_ne {α : Type} (l : List α) (p : α → Bool) (a : α)
    (ha : ¬ p a = true) : (l ++ [a]).find? p = l.find? p := by
  cases hf : l.find? p with
  | some b => exact find?_append_of_some hf
  | none =>
    rw [find?_append_of_none (List.find?_eq_none.mp hf) [a]]
    rw [List.find?_cons_of_neg _ ha]
    rfl

theorem summarizeMembership_eq_of_found {db : DB} {m : RoomMemberRow} {r : RoomRow}
    (hfr : db.rooms.find? (fun q => decide (q.id = m.roomId)) = some r) :
    summarizeMembership db m
      = some ({ roomId := m.roomId, title := r.title, role := m.role,
                roomStatus := r.status, joinedAt := m.joinedAt,
                lastSeenAt := m.lastSeenAt,
                lastMessageAt := lastMessageAt db.messages m.roomId },
              (lastMessageAt db.messages m.roomId).getD r.updatedAt) := by
  unfold summarizeMembership
  rw [hfr]

theorem summarizeMembership_eq_none {db : DB} {m : RoomMemberRow}
    (hfr : db.rooms.find? (fun q => decide (q.id = m.roomId)) = none) :
    summarizeMembership db m = none := by
  unfold summarizeMembership
  rw [hfr]

theorem summarizeMembership_key_lt {db : DB} {m : RoomMemberRow} {r : RoomRow}
    {y : RoomSummary × Nat} {now : Nat}
    (hfr : db.rooms.find? (fun q => decide (q.id = m.roomId)) = some r)
    (hg : summarizeMembership db m = some y)
    (hrT : r.updatedAt < now)
    (hmsgT : ∀ msg ∈ db.messages, msg.createdAt < now) :
    y.2 < now := by
  rw [summarizeMembership_eq_of_found hfr] at hg
  injection hg with hg
  rw [← hg]
  show (lastMessageAt db.messages m.roomId).getD r.updatedAt < now
  cases hlm : lastMessageAt db.messages m.roomId with
  | none =>
    simp only [Option.getD]
    exact hrT
  | some k =>
    simp only [Option.getD]
    unfold lastMessageAt at hlm
    have hk := maxNat?_mem hlm
    obtain ⟨msg, hmsgmem, hmsgeq⟩ := List.mem_map.mp hk
    rw [← hmsgeq]
    exact hmsgT msg (List.mem_filter.mp hmsgmem).1

theorem listRooms_includes_fresh_room
    (db db' : DB) (now limit : Nat) (roomId userId : String)
    (room0 : RoomRow) (m0 : RoomMemberRow)
    (hrooms : db'.rooms = db.rooms ++ [room0])
    (hmembers : db'.members = db.members ++ [m0])
    (hmsgs : db'.messages = db.messages)
    (hr0id : room0.id = roomId) (hr0upd : room0.updatedAt = now)
    (hm0room : m0.roomId = roomId) (hm0user : m0.userId = userId)
    (hm0act : m0.isActive = true)
    (hfreshR : ∀ r ∈ db.rooms, r.id ≠ roomId)
    (hfreshM : ∀ m ∈ db.members, m.roomId ≠ roomId)
    (hfreshMsg : ∀ m ∈ db.messages, m.roomId ≠ roomId)
    (hroomT : ∀ r ∈ db.rooms, r.updatedAt < now)
    (hmsgT : ∀ m ∈ db.messages, m.createdAt < now)
    (hlimit : 1 ≤ limit) :
    roomId ∈ (listRoomsForUser db' userId limit).map (fun s => s.roomId) := by
  have hlm : lastMessageAt db'.messages m0.roomId = none := by
    rw [hmsgs, hm0room]
    unfold lastMessageAt
    have hfil : db.messages.filter (fun m => decide (m.roomId = roomId)) = [] := by
      rw [List.filter_eq_nil_iff]
      intro m hm
      simp only [decide_eq_true_eq]
      exact hfreshMsg m hm
    rw [hfil]
    rfl
  have hfound : db'.rooms.find? (fun r => decide (r.id = m0.roomId)) = some room0 := by
    rw [hrooms, hm0room]
    rw [find?_append_of_none ?_ [room0]]
    · exact List.find?_cons_of_pos _ (decide_eq_true hr0id)
    · intro r hr
      simp only [decide_eq_true_eq]
      exact hfreshR r hr
  have hgnew := summarizeMembership_eq_of_found hfound
  rw [hlm, Option.getD_none, hr0upd] at hgnew
  obtain ⟨x, hxdef⟩ : ∃ x : RoomSummary × Nat,
      x = ({ roomId := m0.roomId, title := room0.title, role := m0.role,
             roomStatus := room0.status, joinedAt := m0.joinedAt,
             lastSeenAt := m0.lastSeenAt, lastMessageAt := none }, now) := ⟨_, rfl⟩
  rw [← hxdef] at hgnew
  have hq0 : [m0].filter (fun m => decide (m.userId = userId ∧ m.isActive = true))
      = [m0] := by
    simp [hm0user, hm0act]
  have hsum : roomSummariesForUser db' userId
      = (db.members.filter (fun m => decide (m.userId = userId ∧ m.isActive = true))).filterMap
          (summarizeMembership db') ++ [x] := by
    unfold roomSummariesForUser
    rw [hmembers]
    rw [List.filter_append db.members [m0]]
    rw [hq0]
    rw [List.filterMap_append _ [m0] (summarizeMembership db')]
    have hone : [m0].filterMap (summarizeMembership db') = [x] := by
      simp only [List.filterMap_cons, hgnew, List.filterMap_nil]
    rw [hone]
  have hx : x ∈ roomSummariesForUser db' userId := by
    rw [hsum]
    exact List.mem_append_right _ (List.mem_cons_self _ [])
  have hkey : x.2 = now := by
    rw [hxdef]
  have hmax : ∀ y ∈ roomSummariesForUser db' userId, y.2 < x.2 ∨ y = x := by
    intro y hy
    rw [hsum] at hy
    rcases List.mem_append.mp hy with hyo | hyx
    · left
      rw [hkey]
      obtain ⟨m, hmF, hgm⟩ := List.mem_filterMap.mp hyo
      have hm : m ∈ db.members := (List.mem_filter.mp hmF).1
      have hne : m.roomId ≠ roomId := hfreshM m hm
      have hfr : db'.rooms.find? (fun r => decide (r.id = m.roomId))
          = db.rooms.find? (fun r => decide (r.id = m.roomId)) := by
        rw [hrooms]
        refine find?_append_singleton_ne db.rooms _ room0 ?_
        simp only [decide_eq_true_eq]
        rw [hr0id]
        exact fun h => hne h.symm
      cases hfind2 : db.rooms.find? (fun r => decide (r.id = m.roomId)) with
      | none =>
        rw [summarizeMembership_eq_none (hfr.trans hfind2)] at hgm
        cases hgm
      | some r =>
        have hrmem : r ∈ db.rooms := List.mem_of_find?_eq_some hfind2
        refine summarizeMembership_key_lt (hfr.trans hfind2) hgm (hroomT r hrmem) ?_
        rw [hmsgs]
        exact hmsgT
    · right
      exact List.mem_singleton.mp hyx
  have hhead := head?_sortByKeyDesc hx hmax
  unfold listRoomsForUser
  cases hsort : sortByKeyDesc (roomSummariesForUser db' userId) with
  | nil =>
    rw [hsort] at hhead
    cases hhead
  | cons z zs =>
    rw [hsort] at hhead
    have hz : z = x := by
      injection hhead
    cases limit with
    | zero => omega
    | succ k =>
      rw [List.take_succ_cons, List.map_cons, hz, hxdef]
      exact List.mem_cons.mpr (Or.inl hm0room.symm)

/-- C8 (confirmed): a successful room creation yields a store in which the
creator is an active `admin` member of the new room, and `listRoomsForUser`
for the creator immediately includes the new room (it sorts first, since a
fresh room's activity key is the creation time). The whole unit is one
transaction: the failure path (duplicate room id) returns an error with no
new state. -/
theorem createRoom_admin_and_listing
    (db : DB) (now : Nat) (roomId : String) (onyxSessionId : Option String)
    (title : Option String) (creatorUserId : String) (limit : Nat)
    (hfreshR : ∀ r ∈ db.rooms, r.id ≠ roomId)
    (hfreshM : ∀ m ∈ db.members, m.roomId ≠ roomId)
    (hfreshMsg : ∀ m ∈ db.messages, m.roomId ≠ roomId)
    (hroomT : ∀ r ∈ db.rooms, r.updatedAt < now)
    (hmsgT : ∀ m ∈ db.messages, m.createdAt < now)
    (hlimit : 1 ≤ limit) :
    ∃ db' room, createRoomWithAdmin db now roomId onyxSessionId title creatorUserId
        = .ok (db', room) ∧
      (∃ m ∈ db'.members, m.roomId = roomId ∧ m.userId = creatorUserId ∧
        m.role = RoomMemberRole.admin ∧ m.isActive = true) ∧
      roomId ∈ (listRoomsForUser db' creatorUserId limit).map (fun s => s.roomId) := by
  have h1 : ¬ db.rooms.any (fun r => decide (r.id = roomId)) = true := by
    rw [Bool.not_eq_true, List.any_eq_false]
    intro r hr
    simp only [decide_eq_true_eq]
    exact hfreshR r hr
  have h2 : ¬ db.members.any
      (fun m => decide (m.roomId = roomId ∧ m.userId = creatorUserId)) = true := by
    rw [Bool.not_eq_true, List.any_eq_false]
    intro m hm
    simp only [decide_eq_true_eq]
    intro hc
    exact hfreshM m hm hc.1
  have hrun : createRoomWithAdmin db now roomId onyxSessionId title creatorUserId
      = .ok
        ({ db with
             rooms := db.rooms ++ [newRoomRow now roomId onyxSessionId title creatorUserId],
             members := db.members ++ [newAdminMemberRow now roomId creatorUserId],
             auditLogs := db.auditLogs ++ [roomCreateAuditRow now roomId creatorUserId] },
         newRoomRow now roomId onyxSessionId title creatorUserId) := by
    simp only [createRoomWithAdmin, upsertRoomMember]
    rw [if_neg h1, if_neg h2]
    rfl
  refine ⟨_, _, hrun, ⟨newAdminMemberRow now roomId creatorUserId,
    List.mem_append_right _ (List.mem_cons_self _ []), rfl, rfl, rfl, rfl⟩, ?_⟩
  exact listRooms_includes_fresh_room db _ now limit roomId creatorUserId _ _
    rfl rfl rfl rfl rfl rfl rfl rfl hfreshR hfreshM hfreshMsg hroomT hmsgT hlimit

/-- Witness for the C8 theorem: creating room `R2` in the empty store. -/
theorem createRoom_admin_and_listing_witness :
    ∃ db' room, createRoomWithAdmin dbEmpty 50 "R2" none none "u1" = .ok (db', room) ∧
      (∃ m ∈ db'.members, m.roomId = "R2" ∧ m.userId = "u1" ∧
        m.role = RoomMemberRole.admin ∧ m.isActive = true) ∧
      "R2" ∈ (listRoomsForUser db' "u1" 20).map (fun s => s.roomId) :=
  createRoom_admin_and_listing dbEmpty 50 "R2" none none "u1" 20
    (by decide) (by decide) (by decide) (by decide) (by decide) (by decide)

/-!  Claim C9. -/

theorem find?_isSome_of_map {α : Type} (l : List α) (p : α → Bool) (f : α → α)
    (hf : ∀ a, p (f a) = p a) (h : (l.find? p).isSome = true) :
    ((l.map f).find? p).isSome = true := by
  rw [find?_map_of_pred_invariant l p f hf]
  obtain ⟨a, ha⟩ := Option.isSome_iff_exists.mp h
  rw [ha]
  rfl

theorem roomAiThinking_setRoomAiThinking (db : DB) (now : Nat) (roomId : String) (b : Bool)
    (h : (db.rooms.find? (fun r => decide (r.id = roomId))).isSome = true) :
    roomAiThinking (setRoomAiThinking db now roomId b) roomId = some b := by
  obtain ⟨r, hr⟩ := Option.isSome_iff_exists.mp h
  have hp := List.find?_some hr
  have hid : r.id = roomId := of_decide_eq_true hp
  show ((db.rooms.map (fun q =>
      if q.id = roomId then { q with aiThinking := b, updatedAt := now } else q)).find?
      (fun q => decide (q.id = roomId))).map (fun q => q.aiThinking) = some b
  rw [find?_map_of_pred_invariant _ _ _ ?_]
  · rw [hr]
    show some ((if r.id = roomId then { r with aiThinking := b, updatedAt := now }
      else r).aiThinking) = some b
    rw [if_pos hid]
  · intro a
    by_cases ha : a.id = roomId
    · rw [if_pos ha]
    · rw [if_neg ha]

theorem rooms_isSome_setRoomAiThinking (db : DB) (now : Nat) (roomId : String) (b : Bool)
    (h : (db.rooms.find? (fun r => decide (r.id = roomId))).isSome = true) :
    (((setRoomAiThinking db now roomId b).rooms).find?
      (fun r => decide (r.id = roomId))).isSome = true := by
  show ((db.rooms.map (fun q =>
      if q.id = roomId then { q with aiThinking := b, updatedAt := now } else q)).find?
      (fun q => decide (q.id = roomId))).isSome = true
  refine find?_isSome_of_map _ _ _ ?_ h
  intro a
  by_cases ha : a.id = roomId
  · rw [if_pos ha]
  · rw [if_neg ha]

theorem rooms_isSome_setRoomSessionId (db : DB) (now : Nat) (roomId sid : String)
    (h : (db.rooms.find? (fun r => decide (r.id = roomId))).isSome = true) :
    (((setRoomSessionId db now roomId sid).rooms).find?
      (fun r => decide (r.id = roomId))).isSome = true := by
  show ((db.rooms.map (fun q =>
      if q.id = roomId then { q with onyxSessionId := some sid, updatedAt := now }
      else q)).find? (fun q => decide (q.id = roomId))).isSome = true
  refine find?_isSome_of_map _ _ _ ?_ h
  intro a
  by_cases ha : a.id = roomId
  · rw [if_pos ha]
  · rw [if_neg ha]

/-- C9 (confirmed): for every chat turn dispatched to the narration service,
the room's `ai_thinking` flag reads true while the outbound call is in flight
and reads false after the handler completes, on every exit path of the
protected body — successful answer (with or without a session-id rotation),
error response, timeout, and thrown exception — because the clear runs in the
`finally` block. -/
theorem aiThinking_cleared_on_all_paths
    (db : DB) (now : Nat) (roomId newMessageId : String) (outcome : OnyxOutcome)
    (hroom : (db.rooms.find? (fun r => decide (r.id = roomId))).isSome = true) :
    roomAiThinking (chatNarrationDispatch db now roomId newMessageId outcome).duringCall
        roomId = some true ∧
    roomAiThinking (chatNarrationDispatch db now roomId newMessageId outcome).final
        roomId = some false := by
  have h1 := rooms_isSome_setRoomAiThinking db now roomId true hroom
  cases outcome with
  | answer text newSessionId =>
    refine ⟨roomAiThinking_setRoomAiThinking db now roomId true hroom, ?_⟩
    cases newSessionId with
    | none =>
      exact roomAiThinking_setRoomAiThinking _ now roomId false h1
    | some sid =>
      exact roomAiThinking_setRoomAiThinking _ now roomId false
        (rooms_isSome_setRoomSessionId _ now roomId sid h1)
  | errorResponse e =>
    exact ⟨roomAiThinking_setRoomAiThinking db now roomId true hroom,
      roomAiThinking_setRoomAiThinking _ now roomId false h1⟩
  | timeout =>
    exact ⟨roomAiThinking_setRoomAiThinking db now roomId true hroom,
      roomAiThinking_setRoomAiThinking _ now roomId false h1⟩
  | raised =>
    exact ⟨roomAiThinking_setRoomAiThinking db now roomId true hroom,
      roomAiThinking_setRoomAiThinking _ now roomId false h1⟩

/-- Witness for the C9 theorem: a timed-out narration call on the fixture
room leaves the flag true during the call and false afterwards. -/
theorem aiThinking_cleared_on_all_paths_witness :
    roomAiThinking (chatNarrationDispatch dbOpen 7 "R" "M1" .timeout).duringCall "R"
        = some true ∧
    roomAiThinking (chatNarrationDispatch dbOpen 7 "R" "M1" .timeout).final "R"
        = some false :=
  aiThinking_cleared_on_all_paths dbOpen 7 "R" "M1" .timeout (by decide)

/-!  Claim C10. -/

/-- C10 (confirmed): `castVoteForProposal` is atomic on rejection for the
non-expiry failure modes — when it returns "Proposal not found" or "Invalid
option" the transaction is rolled back and the store is exactly the input
store — while the "Voting is closed" rejection commits at most the
self-healing close: votes, options, rooms, members, messages, users and audit
logs are untouched and every proposal other than the target is untouched; a
successful vote writes only the votes table. -/
theorem castVote_rollback_on_rejection
    (db : DB) (now : Nat) (roomId proposalId userId optionId : String)
    (db' : DB) (res : EngineResult)
    (hrun : castVoteForProposal db now roomId proposalId userId optionId = (db', res)) :
    (res = .failure "Proposal not found" → db' = db) ∧
    (res = .failure "Invalid option" → db' = db) ∧
    (res = .failure "Voting is closed" →
      db'.votes = db.votes ∧ db'.options = db.options ∧ db'.rooms = db.rooms ∧
      db'.members = db.members ∧ db'.messages = db.messages ∧ db'.users = db.users ∧
      db'.auditLogs = db.auditLogs ∧
      ∀ q ∈ db.proposals, q.id ≠ proposalId → q ∈ db'.proposals) ∧
    (res = .success → db'.proposals = db.proposals) := by
  cases hfind : findProposalInRoom db.proposals proposalId roomId with
  | none =>
    have heq : castVoteForProposal db now roomId proposalId userId optionId
        = (db, .failure "Proposal not found") := by
      unfold castVoteForProposal
      rw [hfind]
    rw [heq, Prod.mk.injEq] at hrun
    obtain ⟨h1, h2⟩ := hrun
    subst h1
    subst h2
    exact ⟨fun _ => rfl, fun _ => rfl,
      fun _ => ⟨rfl, rfl, rfl, rfl, rfl, rfl, rfl, fun q hq _ => hq⟩, fun _ => rfl⟩
  | some p =>
    by_cases hcond : p.status ≠ ProposalStatus.active ∨ p.endsAt ≤ now
    · by_cases hact : p.status = ProposalStatus.active
      · have heq : castVoteForProposal db now roomId proposalId userId optionId
            = ({ db with proposals := db.proposals.map (fun q =>
                  if q.id = proposalId then closeProposalRow now q else q) },
               .failure "Voting is closed") := by
          unfold castVoteForProposal
          rw [hfind]
          simp only
          rw [if_pos hcond, if_pos hact]
        rw [heq, Prod.mk.injEq] at hrun
        obtain ⟨h1, h2⟩ := hrun
        subst h1
        subst h2
        refine ⟨?_, ?_, ?_, ?_⟩
        · intro h
          injection h with h
          exact absurd h (by decide)
        · intro h
          injection h with h
          exact absurd h (by decide)
        · intro _
          refine ⟨rfl, rfl, rfl, rfl, rfl, rfl, rfl, ?_⟩
          intro q hq hne
          have hmem := List.mem_map_of_mem (fun q =>
            if q.id = proposalId then closeProposalRow now q else q) hq
          have hmem2 : (if q.id = proposalId then closeProposalRow now q else q)
              ∈ db.proposals.map (fun q =>
                if q.id = proposalId then closeProposalRow now q else q) := hmem
          rw [if_neg hne] at hmem2
          exact hmem2
        · intro h
          exact absurd h (by intro hc; cases hc)
      · have heq : castVoteForProposal db now roomId proposalId userId optionId
            = (db, .failure "Voting is closed") := by
          unfold castVoteForProposal
          rw [hfind]
          simp only
          rw [if_pos hcond, if_neg hact]
        rw [heq, Prod.mk.injEq] at hrun
        obtain ⟨h1, h2⟩ := hrun
        subst h1
        subst h2
        exact ⟨fun _ => rfl, fun _ => rfl,
          fun _ => ⟨rfl, rfl, rfl, rfl, rfl, rfl, rfl, fun q hq _ => hq⟩, fun _ => rfl⟩
    · cases hopt : findOptionOfProposal db.options optionId proposalId with
      | none =>
        have heq : castVoteForProposal db now roomId proposalId userId optionId
            = (db, .failure "Invalid option") := by
          unfold castVoteForProposal
          rw [hfind]
          simp only
          rw [if_neg hcond, hopt]
        rw [heq, Prod.mk.injEq] at hrun
        obtain ⟨h1, h2⟩ := hrun
        subst h1
        subst h2
        exact ⟨fun _ => rfl, fun _ => rfl,
          fun _ => ⟨rfl, rfl, rfl, rfl, rfl, rfl, rfl, fun q hq _ => hq⟩, fun _ => rfl⟩
      | some o =>
        have heq : castVoteForProposal db now roomId proposalId userId optionId
            = ({ db with votes := upsertVoteRow db.votes now proposalId optionId userId },
               .success) := by
          unfold castVoteForProposal
          rw [hfind]
          simp only
          rw [if_neg hcond, hopt]
        rw [heq, Prod.mk.injEq] at hrun
        obtain ⟨h1, h2⟩ := hrun
        subst h1
        subst h2
        refine ⟨fun h => absurd h (by intro hc; cases hc),
          fun h => absurd h (by intro hc; cases hc),
          fun h => absurd h (by intro hc; cases hc), fun _ => rfl⟩

/-- Witness for the C10 theorem: a vote against the empty store is rejected
with "Proposal not found" and leaves the store unchanged. -/
theorem castVote_rollback_on_rejection_witness :
    (castVoteForProposal dbEmpty 0 "R" "P" "U" "O").2 = .failure "Proposal not found" ∧
    (castVoteForProposal dbEmpty 0 "R" "P" "U" "O").1 = dbEmpty :=
  ⟨rfl, (castVote_rollback_on_rejection dbEmpty 0 "R" "P" "U" "O"
    (castVoteForProposal dbEmpty 0 "R" "P" "U" "O").1
    (castVoteForProposal dbEmpty 0 "R" "P" "U" "O").2 rfl).1 rfl⟩

end ClimateKic
